import Mathlib

/-!
Verification development for the hyperbyte-pulse process monitor
(`internal/monitor/types.go`, `internal/monitor/monitor.go`,
`internal/app` driver).  Go floats are modelled as rationals (`ℚ`),
Go `uint64` counters as naturals below `2^64` with wrapping subtraction,
Go slices as descriptors into an explicit heap of backing arrays (so
aliasing and in-place mutation are observable), and Go maps as
association lists with unique keys.
-/

/-! ## Go slice model

A Go slice is a descriptor `(ref, off, len, cap)` into a heap of backing
arrays.  `append` writes in place when there is spare capacity and
reallocates (at least doubling the capacity) otherwise; `s[1:]` shifts the
descriptor; `append([]T(nil), src...)` produces a fresh backing array. -/

/-- The heap of backing arrays; metric values are rationals. -/
abbrev GoHeap := List (List ℚ)

/-- A Go slice descriptor: backing-array index, offset, length, capacity. -/
structure GoSlice where
  ref : Nat
  off : Nat
  len : Nat
  cap : Nat
  deriving DecidableEq, Inhabited

/-- The sequence of values a slice denotes. -/
def sliceVals (h : GoHeap) (s : GoSlice) : List ℚ :=
  ((h.getD s.ref []).drop s.off).take s.len

/-- Go `append` capacity growth: the new capacity at least doubles the old
one and always covers the new length (`runtime.growslice`). -/
def growCap (c n : Nat) : Nat := max (2 * c) n

/-- Go `append(s, v)`: write in place at index `off+len` when `len < cap`,
otherwise reallocate a fresh backing array holding the old values and `v`. -/
def goAppend (h : GoHeap) (s : GoSlice) (v : ℚ) : GoHeap × GoSlice :=
  if s.len < s.cap then
    (h.set s.ref ((h.getD s.ref []).set (s.off + s.len) v),
     { s with len := s.len + 1 })
  else
    (h ++ [sliceVals h s ++ [v]],
     { ref := h.length, off := 0, len := s.len + 1, cap := growCap s.cap (s.len + 1) })

/-- Go `make([]T, 0, c)`: a fresh zeroed backing array of size `c`. -/
def goMake (h : GoHeap) (c : Nat) : GoHeap × GoSlice :=
  (h ++ [List.replicate c 0], { ref := h.length, off := 0, len := 0, cap := c })

/-- Go `append([]T(nil), src...)`: a deep copy into a fresh backing array
(a nil destination never shares backing with the source). -/
def goCopy (h : GoHeap) (s : GoSlice) : GoHeap × GoSlice :=
  (h ++ [sliceVals h s], { ref := h.length, off := 0, len := s.len, cap := s.len })

/-- Go `s[1:]`: drop the first element, shrinking length and capacity. -/
def goTail (s : GoSlice) : GoSlice :=
  { s with off := s.off + 1, len := s.len - 1, cap := s.cap - 1 }

/-! ## Time-series store (`internal/monitor/types.go`)

`ProcessMetrics` is nine parallel slices; the `Timestamps` column (Go
`time.Time`) is modelled as rational seconds like every other column. -/

/-- `ProcessMetrics` (types.go:35-45): nine parallel history columns. -/
structure ProcessMetrics where
  Timestamps    : GoSlice
  CPUPercent    : GoSlice
  MemoryMB      : GoSlice
  DiskReadRate  : GoSlice
  DiskWriteRate : GoSlice
  DiskReadPerc  : GoSlice
  DiskWritePerc : GoSlice
  NetSentRate   : GoSlice
  NetRecvRate   : GoSlice
  deriving DecidableEq, Inhabited

/-- `NewProcessMetrics` (types.go:48-60): nine `make([]T, 0, capacity)`. -/
def NewProcessMetrics (h : GoHeap) (capacity : Nat) : GoHeap × ProcessMetrics :=
  let r1 := goMake h capacity
  let r2 := goMake r1.1 capacity
  let r3 := goMake r2.1 capacity
  let r4 := goMake r3.1 capacity
  let r5 := goMake r4.1 capacity
  let r6 := goMake r5.1 capacity
  let r7 := goMake r6.1 capacity
  let r8 := goMake r7.1 capacity
  let r9 := goMake r8.1 capacity
  (r9.1, ⟨r1.2, r2.2, r3.2, r4.2, r5.2, r6.2, r7.2, r8.2, r9.2⟩)

/-- `AddMetric` (types.go:63-87): append to all nine columns, then read
`capacity := cap(pm.Timestamps)` from the *post-append* slice and drop the
front of every column while `len(pm.Timestamps) > capacity`. -/
def AddMetric (h : GoHeap) (pm : ProcessMetrics)
    (timestamp cpu memory diskReadRate diskWriteRate diskReadPerc diskWritePerc
      netSentRate netRecvRate : ℚ) : GoHeap × ProcessMetrics :=
  let r1 := goAppend h pm.Timestamps timestamp
  let r2 := goAppend r1.1 pm.CPUPercent cpu
  let r3 := goAppend r2.1 pm.MemoryMB memory
  let r4 := goAppend r3.1 pm.DiskReadRate diskReadRate
  let r5 := goAppend r4.1 pm.DiskWriteRate diskWriteRate
  let r6 := goAppend r5.1 pm.DiskReadPerc diskReadPerc
  let r7 := goAppend r6.1 pm.DiskWritePerc diskWritePerc
  let r8 := goAppend r7.1 pm.NetSentRate netSentRate
  let r9 := goAppend r8.1 pm.NetRecvRate netRecvRate
  let capacity := r1.2.cap
  (r9.1,
    if capacity < r1.2.len then
      ⟨goTail r1.2, goTail r2.2, goTail r3.2, goTail r4.2, goTail r5.2,
       goTail r6.2, goTail r7.2, goTail r8.2, goTail r9.2⟩
    else
      ⟨r1.2, r2.2, r3.2, r4.2, r5.2, r6.2, r7.2, r8.2, r9.2⟩)

/-- The nine stored value sequences of a series. -/
def seriesData (h : GoHeap) (pm : ProcessMetrics) : List (List ℚ) :=
  [sliceVals h pm.Timestamps, sliceVals h pm.CPUPercent, sliceVals h pm.MemoryMB,
   sliceVals h pm.DiskReadRate, sliceVals h pm.DiskWriteRate,
   sliceVals h pm.DiskReadPerc, sliceVals h pm.DiskWritePerc,
   sliceVals h pm.NetSentRate, sliceVals h pm.NetRecvRate]

/-! Basic facts about the slice model. -/

/-- After a Go append the length never exceeds the capacity (in place:
there was spare capacity; reallocation: the new capacity covers the new
length).  Hence the guard `len(pm.Timestamps) > capacity` in `AddMetric`,
which reads the post-append capacity, can never hold. -/
theorem goAppend_len_le_cap (h : GoHeap) (s : GoSlice) (v : ℚ) :
    (goAppend h s v).2.len ≤ (goAppend h s v).2.cap := by
  unfold goAppend
  split
  · simpa using ‹s.len < s.cap›
  · simp [growCap]

/-- `goAppend` increments the slice length. -/
theorem goAppend_len (h : GoHeap) (s : GoSlice) (v : ℚ) :
    (goAppend h s v).2.len = s.len + 1 := by
  unfold goAppend
  split <;> simp

/-- `AddMetric` always grows the `Timestamps` column by one: the eviction
branch compares the new length against the already-grown capacity, so it
never fires. -/
theorem addMetric_len (h : GoHeap) (pm : ProcessMetrics)
    (a b c d e f g i j : ℚ) :
    (AddMetric h pm a b c d e f g i j).2.Timestamps.len = pm.Timestamps.len + 1 := by
  unfold AddMetric
  have hle := goAppend_len_le_cap h pm.Timestamps a
  have hlen := goAppend_len h pm.Timestamps a
  simp only []
  rw [if_neg (by omega)]
  simpa using hlen

/-! ## Go maps as association lists

`map[int32]V` is modelled as an association list with at most one entry
per key; `alGet` is map lookup, `alSet` is `m[k] = v` (replace or add). -/

/-- Map lookup `v, ok := m[k]`. -/
def alGet {β : Type} (m : List (Int × β)) (k : Int) : Option β :=
  match m with
  | [] => none
  | (k', v) :: rest => if k' = k then some v else alGet rest k

/-- Map store `m[k] = v`: replace the entry if present, else add one. -/
def alSet {β : Type} (m : List (Int × β)) (k : Int) (v : β) : List (Int × β) :=
  match m with
  | [] => [(k, v)]
  | (k', v') :: rest => if k' = k then (k, v) :: rest else (k', v') :: alSet rest k v

/-- Number of entries a map holds for a key. -/
def alCount {β : Type} (m : List (Int × β)) (k : Int) : Nat :=
  (m.filter (fun e => e.1 == k)).length

/-! ## Registry operations on the time-series store (`monitor.go`) -/

/-- `EnsureProcessMetrics` (monitor.go:106-114): create an empty series of
the configured capacity iff the pid has none. -/
def EnsureProcessMetrics (h : GoHeap) (pm : List (Int × ProcessMetrics))
    (metricsCapacity : Nat) (pid : Int) : GoHeap × List (Int × ProcessMetrics) :=
  match alGet pm pid with
  | some _ => (h, pm)
  | none =>
    let r := NewProcessMetrics h metricsCapacity
    (r.1, alSet pm pid r.2)

/-- `GetProcessMetrics` (monitor.go:82-102): deep-copy every column via
`append([]T(nil), col...)` so the returned series shares no backing array
with the store; absent pid returns `nil`. -/
def GetProcessMetrics (h : GoHeap) (pm : List (Int × ProcessMetrics))
    (pid : Int) : GoHeap × Option ProcessMetrics :=
  match alGet pm pid with
  | none => (h, none)
  | some metrics =>
    let c1 := goCopy h metrics.Timestamps
    let c2 := goCopy c1.1 metrics.CPUPercent
    let c3 := goCopy c2.1 metrics.MemoryMB
    let c4 := goCopy c3.1 metrics.DiskReadRate
    let c5 := goCopy c4.1 metrics.DiskWriteRate
    let c6 := goCopy c5.1 metrics.DiskReadPerc
    let c7 := goCopy c6.1 metrics.DiskWritePerc
    let c8 := goCopy c7.1 metrics.NetSentRate
    let c9 := goCopy c8.1 metrics.NetRecvRate
    (c9.1, some ⟨c1.2, c2.2, c3.2, c4.2, c5.2, c6.2, c7.2, c8.2, c9.2⟩)

/-- `ProcessInfo` (types.go:6-23); floats as `ℚ`, `time.Time` as rational
seconds, PID as an integer. -/
structure ProcessInfo where
  PID : Int
  Name : String
  CPUPercent : ℚ
  MemoryMB : ℚ
  MemoryPerc : ℚ
  CreateTime : ℚ
  DiskReadKB : ℚ
  DiskWriteKB : ℚ
  DiskReadRate : ℚ
  DiskWriteRate : ℚ
  DiskReadPerc : ℚ
  DiskWritePerc : ℚ
  NetSentKB : ℚ
  NetRecvKB : ℚ
  NetSentRate : ℚ
  NetRecvRate : ℚ
  deriving DecidableEq, Inhabited

/-- `CleanupOldMetrics` (monitor.go:522-538): build the pid set from the
*published process list* `m.processes` and delete every series whose pid is
not in it. -/
def CleanupOldMetrics (processes : List ProcessInfo)
    (pm : List (Int × ProcessMetrics)) : List (Int × ProcessMetrics) :=
  let currentPIDs := processes.map (fun p => p.PID)
  pm.filter (fun e => currentPIDs.contains e.1)

/-- `updateProcessTimeSeriesMetrics` (monitor.go:476-496): create the
series if absent, then `AddMetric` with `time.Now()` and the info's rate
and percentage fields. -/
def updateProcessTimeSeriesMetrics (h : GoHeap) (pm : List (Int × ProcessMetrics))
    (metricsCapacity : Nat) (now : ℚ) (info : ProcessInfo) :
    GoHeap × List (Int × ProcessMetrics) :=
  let pid := info.PID
  let e := EnsureProcessMetrics h pm metricsCapacity pid
  match alGet e.2 pid with
  | none => e  -- unreachable: EnsureProcessMetrics just inserted the pid
  | some s =>
    let r := AddMetric e.1 s now info.CPUPercent info.MemoryMB info.DiskReadRate
      info.DiskWriteRate info.DiskReadPerc info.DiskWritePerc
      info.NetSentRate info.NetRecvRate
    (r.1, alSet e.2 pid r.2)

/-! ## C1: the rolling window never evicts -/

/-- One `AddMetric` step feeding the same value to all nine columns. -/
def c1Step (hs : GoHeap × ProcessMetrics) (v : ℚ) : GoHeap × ProcessMetrics :=
  AddMetric hs.1 hs.2 v v v v v v v v v

/-- A capacity-3 series receiving the points 1, 2, 3, 4 in order. -/
def c1Run : GoHeap × ProcessMetrics :=
  c1Step (c1Step (c1Step (c1Step (NewProcessMetrics [] 3) 1) 2) 3) 4

/-- C1: a capacity-3 series receiving A,B,C,D (here 1,2,3,4) retains all
four points — length 4 exceeds the configured capacity 3 and nothing was
evicted, because `AddMetric` compares the post-append length against the
post-append (already reallocated and grown) slice capacity, which Go's
`append` keeps at least as large as the length.  The claimed final
sequence [B,C,D] = [2,3,4] does not hold. -/
theorem c1_capacity3_retains_all_four :
    sliceVals c1Run.1 c1Run.2.Timestamps = [1, 2, 3, 4] ∧
    c1Run.2.Timestamps.len = 4 ∧ 3 < c1Run.2.Timestamps.len := by
  decide

/-! ## C8: `EnsureProcessMetrics` is idempotent -/

/-- Looking up a key just stored finds the stored value. -/
theorem alGet_alSet_self {β : Type} (m : List (Int × β)) (k : Int) (v : β) :
    alGet (alSet m k v) k = some v := by
  induction m with
  | nil => simp [alSet, alGet]
  | cons e rest ih =>
    obtain ⟨k', v'⟩ := e
    by_cases hk : k' = k
    · subst hk; simp [alSet, alGet]
    · simp [alSet, alGet, hk, ih]

/-- A key that lookup misses has no entries at all. -/
theorem alCount_of_alGet_none {β : Type} (m : List (Int × β)) (k : Int)
    (hnone : alGet m k = none) : alCount m k = 0 := by
  induction m with
  | nil => simp [alCount]
  | cons e rest ih =>
    obtain ⟨k', v'⟩ := e
    by_cases hk : k' = k
    · simp [alGet, hk] at hnone
    · have hb : (k' == k) = false := by simpa using hk
      simp only [alGet, if_neg hk] at hnone
      simpa [alCount, hb] using ih hnone

/-- Storing a fresh key yields exactly one entry for it. -/
theorem alCount_alSet_of_none {β : Type} (m : List (Int × β)) (k : Int) (v : β)
    (hnone : alGet m k = none) : alCount (alSet m k v) k = 1 := by
  induction m with
  | nil => simp [alSet, alCount]
  | cons e rest ih =>
    obtain ⟨k', v'⟩ := e
    by_cases hk : k' = k
    · simp [alGet, hk] at hnone
    · have hb : (k' == k) = false := by simpa using hk
      simp only [alGet, if_neg hk] at hnone
      simpa [alSet, if_neg hk, alCount, hb] using ih hnone

/-- C8: `EnsureProcessMetrics` is idempotent.  Running it twice equals
running it once; on a pid with no series it leaves exactly one entry, an
empty series whose columns have the configured capacity; on a pid that
already has a series it changes nothing at all (so a non-empty series is
never discarded). -/
theorem ensureProcessMetrics_idempotent (h : GoHeap)
    (pm : List (Int × ProcessMetrics)) (c : Nat) (pid : Int) :
    EnsureProcessMetrics (EnsureProcessMetrics h pm c pid).1
        (EnsureProcessMetrics h pm c pid).2 c pid = EnsureProcessMetrics h pm c pid ∧
    (alGet pm pid = none →
      alCount (EnsureProcessMetrics h pm c pid).2 pid = 1 ∧
      alGet (EnsureProcessMetrics h pm c pid).2 pid = some (NewProcessMetrics h c).2 ∧
      seriesData (EnsureProcessMetrics h pm c pid).1 (NewProcessMetrics h c).2 =
        [[], [], [], [], [], [], [], [], []] ∧
      (NewProcessMetrics h c).2.Timestamps.cap = c) ∧
    (∀ s, alGet pm pid = some s → EnsureProcessMetrics h pm c pid = (h, pm)) := by
  refine ⟨?_, ?_, ?_⟩
  · cases hget : alGet pm pid with
    | some s =>
      simp [EnsureProcessMetrics, hget]
    | none =>
      simp [EnsureProcessMetrics, hget, alGet_alSet_self]
  · intro hget
    refine ⟨?_, ?_, ?_, ?_⟩
    · simp [EnsureProcessMetrics, hget, alCount_alSet_of_none _ _ _ hget]
    · simp [EnsureProcessMetrics, hget, alGet_alSet_self]
    · simp [EnsureProcessMetrics, hget, seriesData, sliceVals, NewProcessMetrics, goMake]
    · simp [NewProcessMetrics, goMake]
  · intro s hget
    simp [EnsureProcessMetrics, hget]

/-- C8 witness: on the empty registry, pid 7 with capacity 60. -/
theorem ensureProcessMetrics_idempotent_witness :
    alCount (EnsureProcessMetrics ([] : GoHeap) [] 60 7).2 7 = 1 ∧
    EnsureProcessMetrics (EnsureProcessMetrics ([] : GoHeap) [] 60 7).1
        (EnsureProcessMetrics ([] : GoHeap) [] 60 7).2 60 7 =
      EnsureProcessMetrics ([] : GoHeap) [] 60 7 :=
  ⟨((ensureProcessMetrics_idempotent [] [] 60 7).2.1 rfl).1,
   (ensureProcessMetrics_idempotent [] [] 60 7).1⟩

/-! ## C4: cleanup keys on the published list, not the live set -/

/-- Series for pid 1 (created by the periodic cycle). -/
def c4Series1 : GoHeap × ProcessMetrics := NewProcessMetrics [] 60

/-- Series for pid 2 (created by an explicit ensure-tracked request). -/
def c4Series2 : GoHeap × ProcessMetrics := NewProcessMetrics c4Series1.1 60

/-- The published process list holds only pid 1. -/
def c4P1 : ProcessInfo := ⟨1, "alpha", 0, 0, 0, 0, 0, 0, 0, 0, 0, 0, 0, 0, 0, 0⟩

/-- C4: with live processes {1, 2}, pid 2 ensure-tracked but outside the
published list (which holds only pid 1), a cleanup pass deletes pid 2's
series: `CleanupOldMetrics` takes no live set — it keys on the published
top-K list `m.processes` — so a live, explicitly tracked process outside
that list loses its history, contrary to the claim. -/
theorem cleanupOldMetrics_deletes_live_tracked_series :
    CleanupOldMetrics [c4P1] [(1, c4Series1.2), (2, c4Series2.2)] =
      [(1, c4Series1.2)] ∧
    alGet (CleanupOldMetrics [c4P1] [(1, c4Series1.2), (2, c4Series2.2)]) 2 =
      none := by
  decide

/-! ## Aggregator: `getDetailedProcessInfo` (monitor.go:310-376)

The gopsutil calls are an external capability; a `CycleEnv` records, per
pid, what each call would return this cycle.  `getBasicProcessInfo`
(monitor.go:286-307) never returns an error: each sub-call failure merely
leaves that field at its zero default, so `basicRead` yields the final
field values directly. -/

/-- `ProcessIOCounters` (monitor.go:28-32): cached cumulative byte
counters (`uint64`, hence naturals below `2^64`) and their timestamp. -/
structure ProcessIOCounters where
  ReadBytes : Nat
  WriteBytes : Nat
  Timestamp : ℚ
  deriving DecidableEq, Inhabited

/-- Go `uint64` subtraction `a - b`: wraps modulo `2^64`. -/
def wrapSub64 (a b : Nat) : Nat := (a + 2 ^ 64 - b) % 2 ^ 64

/-- Field values produced by `getBasicProcessInfo` for one pid this cycle
(sub-call failures already collapsed to zero defaults). -/
structure BasicFields where
  Name : String
  CPUPercent : ℚ
  MemoryPerc : ℚ
  MemoryMB : ℚ
  deriving DecidableEq, Inhabited

/-- What the metric source returns during one cycle. -/
structure CycleEnv where
  now : ℚ
  cpuRes : Option (List ℚ)
  memRes : Option (Nat × Nat × ℚ)
  pidsRes : Option (List Int)
  newProcessOk : Int → Bool
  basicRead : Int → BasicFields
  createTimeRes : Int → Option ℚ
  ioCountersRes : Int → Option (Nat × Nat)

/-- `getBasicProcessInfo` (monitor.go:286-307): name, CPU%, memory% and
RSS-derived MB; always succeeds. -/
def getBasicProcessInfo (env : CycleEnv) (pid : Int) : ProcessInfo :=
  let b := env.basicRead pid
  { PID := pid, Name := b.Name, CPUPercent := b.CPUPercent,
    MemoryMB := b.MemoryMB, MemoryPerc := b.MemoryPerc,
    CreateTime := 0, DiskReadKB := 0, DiskWriteKB := 0,
    DiskReadRate := 0, DiskWriteRate := 0, DiskReadPerc := 0,
    DiskWritePerc := 0, NetSentKB := 0, NetRecvKB := 0,
    NetSentRate := 0, NetRecvRate := 0 }

/-- `getDetailedProcessInfo` (monitor.go:310-376): basic info, creation
time, then — if the I/O read succeeds — cumulative KB, rate and percentage
fields from the previous-counter cache, finally overwriting the cache
entry.  Returns the info and the updated `lastProcessIO` cache. -/
def getDetailedProcessInfo (env : CycleEnv) (systemIOTotal : ℚ)
    (lastIo : List (Int × ProcessIOCounters)) (pid : Int) :
    ProcessInfo × List (Int × ProcessIOCounters) :=
  let info0 := getBasicProcessInfo env pid
  let now := env.now
  let info1 :=
    match env.createTimeRes pid with
    | some t => { info0 with CreateTime := t }
    | none => info0
  match env.ioCountersRes pid with
  | none => (info1, lastIo)
  | some (rb, wb) =>
    let info2 := { info1 with DiskReadKB := (rb : ℚ) / 1024,
                              DiskWriteKB := (wb : ℚ) / 1024 }
    let info3 :=
      match alGet lastIo pid with
      | none => info2
      | some last =>
        let timeDiff := now - last.Timestamp
        if 0 < timeDiff then
          let readDiff : ℚ := (wrapSub64 rb last.ReadBytes : ℚ)
          let writeDiff : ℚ := (wrapSub64 wb last.WriteBytes : ℚ)
          let info4 := { info2 with DiskReadRate := readDiff / 1024 / timeDiff,
                                    DiskWriteRate := writeDiff / 1024 / timeDiff }
          if 0 < systemIOTotal then
            { info4 with DiskReadPerc := info4.DiskReadRate / systemIOTotal * 100,
                         DiskWritePerc := info4.DiskWriteRate / systemIOTotal * 100 }
          else
            { info4 with DiskReadPerc := min (info4.DiskReadRate / 1024) 100,
                         DiskWritePerc := min (info4.DiskWriteRate / 1024) 100 }
        else info2
    (info3, alSet lastIo pid ⟨rb, wb, now⟩)

/-! ## C2, C7, C10: rate and percentage computation -/

/-- Unsigned 64-bit subtraction agrees with true subtraction when the
counters did not go backwards. -/
theorem wrapSub64_of_le (a b : Nat) (hba : b ≤ a) (ha : a < 2 ^ 64) :
    wrapSub64 a b = a - b := by
  unfold wrapSub64
  have h1 : a + 2 ^ 64 - b = (a - b) + 2 ^ 64 := by omega
  rw [h1, Nat.add_mod_right]
  exact Nat.mod_eq_of_lt (by omega)

/-- Unsigned 64-bit subtraction wraps when the counter went backwards. -/
theorem wrapSub64_of_lt (a b : Nat) (hab : a < b) :
    wrapSub64 a b = a + 2 ^ 64 - b := by
  unfold wrapSub64
  exact Nat.mod_eq_of_lt (by omega)

/-- C2: with a cached entry and a strictly positive time delta, the
published disk rates are exactly `(byteDelta/1024)/deltaSeconds`
(counters assumed not to have gone backwards; C10 covers wrap-around);
with a non-positive delta, or no cached entry, all four rate and
percentage fields keep their zero defaults. -/
theorem diskRate_exact (env : CycleEnv) (sysIo : ℚ)
    (lastIo : List (Int × ProcessIOCounters)) (pid : Int) (rb wb : Nat)
    (hio : env.ioCountersRes pid = some (rb, wb)) :
    (∀ last, alGet lastIo pid = some last →
      rb < 2 ^ 64 → last.ReadBytes ≤ rb → wb < 2 ^ 64 → last.WriteBytes ≤ wb →
      0 < env.now - last.Timestamp →
      (getDetailedProcessInfo env sysIo lastIo pid).1.DiskReadRate
          = (((rb : ℚ) - (last.ReadBytes : ℚ)) / 1024) / (env.now - last.Timestamp) ∧
      (getDetailedProcessInfo env sysIo lastIo pid).1.DiskWriteRate
          = (((wb : ℚ) - (last.WriteBytes : ℚ)) / 1024) / (env.now - last.Timestamp)) ∧
    (∀ last, alGet lastIo pid = some last → env.now - last.Timestamp ≤ 0 →
      (getDetailedProcessInfo env sysIo lastIo pid).1.DiskReadRate = 0 ∧
      (getDetailedProcessInfo env sysIo lastIo pid).1.DiskWriteRate = 0 ∧
      (getDetailedProcessInfo env sysIo lastIo pid).1.DiskReadPerc = 0 ∧
      (getDetailedProcessInfo env sysIo lastIo pid).1.DiskWritePerc = 0) ∧
    (alGet lastIo pid = none →
      (getDetailedProcessInfo env sysIo lastIo pid).1.DiskReadRate = 0 ∧
      (getDetailedProcessInfo env sysIo lastIo pid).1.DiskWriteRate = 0 ∧
      (getDetailedProcessInfo env sysIo lastIo pid).1.DiskReadPerc = 0 ∧
      (getDetailedProcessInfo env sysIo lastIo pid).1.DiskWritePerc = 0) := by
  refine ⟨?_, ?_, ?_⟩
  · intro last hlast hrb hbr hwb hbw ht
    have hr := wrapSub64_of_le rb last.ReadBytes hbr hrb
    have hw := wrapSub64_of_le wb last.WriteBytes hbw hwb
    have hrc : ((wrapSub64 rb last.ReadBytes : Nat) : ℚ)
        = (rb : ℚ) - (last.ReadBytes : ℚ) := by
      rw [hr, Nat.cast_sub hbr]
    have hwc : ((wrapSub64 wb last.WriteBytes : Nat) : ℚ)
        = (wb : ℚ) - (last.WriteBytes : ℚ) := by
      rw [hw, Nat.cast_sub hbw]
    cases hct : env.createTimeRes pid <;>
      simp only [getDetailedProcessInfo, getBasicProcessInfo, hio, hct,
        hlast, if_pos ht] <;>
      split <;> simp [hrc, hwc]
  · intro last hlast ht
    have ht' : ¬ (0 < env.now - last.Timestamp) := not_lt.mpr ht
    have ht2 : ¬ (last.Timestamp < env.now) := by
      rw [← sub_pos]; exact ht'
    cases hct : env.createTimeRes pid <;>
      simp [getDetailedProcessInfo, getBasicProcessInfo, hio, hct, hlast,
        ht', ht2]
  · intro hnone
    cases hct : env.createTimeRes pid <;>
      simp [getDetailedProcessInfo, getBasicProcessInfo, hio, hct, hnone]

/-- Environment realizing the spec scenario: counters 1024 at t = 0 and
2048 at t = 1 s. -/
def c2Env : CycleEnv :=
  { now := 1, cpuRes := some [0], memRes := some (0, 0, 0),
    pidsRes := some [1], newProcessOk := fun _ => true,
    basicRead := fun _ => ⟨"proc", 0, 0, 0⟩,
    createTimeRes := fun _ => none,
    ioCountersRes := fun p => if p = 1 then some (2048, 4096) else none }

/-- Previous-counter cache for the C2 scenario. -/
def c2Cache : List (Int × ProcessIOCounters) := [(1, ⟨1024, 1024, 0⟩)]

/-- C2 witness: 1024 bytes at t = 0, 2048 bytes at t = 1 gives exactly
1 KB/s. -/
theorem diskRate_exact_witness :
    (getDetailedProcessInfo c2Env (100 * 1024) c2Cache 1).1.DiskReadRate = 1 := by
  have h := ((diskRate_exact c2Env (100 * 1024) c2Cache 1 2048 4096
      (by decide)).1 ⟨1024, 1024, 0⟩ (by decide) (by norm_num) (by norm_num)
      (by norm_num) (by norm_num) (by norm_num [c2Env])).1
  rw [h]
  norm_num [c2Env]

/-- C7: with a cached entry and a positive time delta, a zero system I/O
budget makes the percentages fall back to `min(rate/1024, 100)`, while a
positive budget gives `rate / budget * 100`. -/
theorem diskPerc_budget (env : CycleEnv) (sysIo : ℚ)
    (lastIo : List (Int × ProcessIOCounters)) (pid : Int) (rb wb : Nat)
    (last : ProcessIOCounters)
    (hio : env.ioCountersRes pid = some (rb, wb))
    (hlast : alGet lastIo pid = some last)
    (ht : 0 < env.now - last.Timestamp) :
    (sysIo = 0 →
      (getDetailedProcessInfo env sysIo lastIo pid).1.DiskReadPerc
        = min ((getDetailedProcessInfo env sysIo lastIo pid).1.DiskReadRate / 1024) 100 ∧
      (getDetailedProcessInfo env sysIo lastIo pid).1.DiskWritePerc
        = min ((getDetailedProcessInfo env sysIo lastIo pid).1.DiskWriteRate / 1024) 100) ∧
    (0 < sysIo →
      (getDetailedProcessInfo env sysIo lastIo pid).1.DiskReadPerc
        = (getDetailedProcessInfo env sysIo lastIo pid).1.DiskReadRate / sysIo * 100 ∧
      (getDetailedProcessInfo env sysIo lastIo pid).1.DiskWritePerc
        = (getDetailedProcessInfo env sysIo lastIo pid).1.DiskWriteRate / sysIo * 100) := by
  have ht2 : last.Timestamp < env.now := sub_pos.mp ht
  constructor
  · intro h0
    subst h0
    cases hct : env.createTimeRes pid <;>
      simp [getDetailedProcessInfo, getBasicProcessInfo, hio, hct, hlast, ht2]
  · intro hpos
    cases hct : env.createTimeRes pid <;>
      simp [getDetailedProcessInfo, getBasicProcessInfo, hio, hct, hlast,
        ht2, hpos]

/-- Scenario environment for C7: a read of 2097152 cumulative bytes one
second after a cached zero counter, i.e. a 2048 KB/s read rate. -/
def c7Env : CycleEnv :=
  { now := 1, cpuRes := some [0], memRes := some (0, 0, 0),
    pidsRes := some [1], newProcessOk := fun _ => true,
    basicRead := fun _ => ⟨"proc", 0, 0, 0⟩,
    createTimeRes := fun _ => none,
    ioCountersRes := fun p => if p = 1 then some (2097152, 0) else none }

/-- Previous-counter cache for the C7 scenario. -/
def c7Cache : List (Int × ProcessIOCounters) := [(1, ⟨0, 0, 0⟩)]

/-- C7 witness: a 2048 KB/s read rate under a zero budget yields the
fallback percentage `min(2048/1024, 100) = 2`. -/
theorem diskPerc_budget_witness :
    (getDetailedProcessInfo c7Env 0 c7Cache 1).1.DiskReadPerc
      = min ((getDetailedProcessInfo c7Env 0 c7Cache 1).1.DiskReadRate / 1024) 100 ∧
    (getDetailedProcessInfo c7Env 0 c7Cache 1).1.DiskReadPerc = 2 := by
  have h := ((diskPerc_budget c7Env 0 c7Cache 1 2097152 0 ⟨0, 0, 0⟩ (by decide)
      (by decide) (by norm_num [c7Env])).1 rfl).1
  refine ⟨h, ?_⟩
  rw [h]
  have hrate : (getDetailedProcessInfo c7Env 0 c7Cache 1).1.DiskReadRate = 2048 := by
    norm_num [getDetailedProcessInfo, getBasicProcessInfo, c7Env, c7Cache,
      alGet, wrapSub64]
  rw [hrate]
  rw [min_eq_left (by norm_num)]
  norm_num

/-- C10: when the current cumulative counter is below the cached one (pid
reuse or counter reset), the byte delta wraps modulo `2^64`, so the
published rate is the astronomically large positive value
`(cur + 2^64 − last)/1024/deltaSeconds` rather than zero or negative. -/
theorem wrapAround_rate (env : CycleEnv) (sysIo : ℚ)
    (lastIo : List (Int × ProcessIOCounters)) (pid : Int) (rb wb : Nat)
    (last : ProcessIOCounters)
    (hio : env.ioCountersRes pid = some (rb, wb))
    (hlast : alGet lastIo pid = some last)
    (ht : 0 < env.now - last.Timestamp)
    (hlt : rb < last.ReadBytes) (hub : last.ReadBytes < 2 ^ 64) :
    (getDetailedProcessInfo env sysIo lastIo pid).1.DiskReadRate
      = ((rb + 2 ^ 64 - last.ReadBytes : Nat) : ℚ) / 1024 / (env.now - last.Timestamp) ∧
    0 < (getDetailedProcessInfo env sysIo lastIo pid).1.DiskReadRate := by
  have hwrap := wrapSub64_of_lt rb last.ReadBytes hlt
  have hrate : (getDetailedProcessInfo env sysIo lastIo pid).1.DiskReadRate
      = ((rb + 2 ^ 64 - last.ReadBytes : Nat) : ℚ) / 1024 / (env.now - last.Timestamp) := by
    cases hct : env.createTimeRes pid <;>
      simp only [getDetailedProcessInfo, getBasicProcessInfo, hio, hct,
        hlast, if_pos ht] <;>
      split <;> simp [hwrap]
  refine ⟨hrate, ?_⟩
  rw [hrate]
  have hnum : (0 : ℚ) < ((rb + 2 ^ 64 - last.ReadBytes : Nat) : ℚ) := by
    exact_mod_cast Nat.pos_of_ne_zero (by omega)
  exact div_pos (div_pos hnum (by norm_num)) ht

/-- Environment for the C10 witness: current counter 0, cached counter
1024, one second apart. -/
def c10Env : CycleEnv :=
  { now := 1, cpuRes := some [0], memRes := some (0, 0, 0),
    pidsRes := some [1], newProcessOk := fun _ => true,
    basicRead := fun _ => ⟨"proc", 0, 0, 0⟩,
    createTimeRes := fun _ => none,
    ioCountersRes := fun p => if p = 1 then some (0, 0) else none }

/-- Previous-counter cache for the C10 witness. -/
def c10Cache : List (Int × ProcessIOCounters) := [(1, ⟨1024, 0, 0⟩)]

/-- C10 witness: counter going from 1024 down to 0 over one second
publishes the enormous positive rate `(2^64 − 1024)/1024` KB/s. -/
theorem wrapAround_rate_witness :
    (getDetailedProcessInfo c10Env (100 * 1024) c10Cache 1).1.DiskReadRate
      = 18014398509481983 ∧
    0 < (getDetailedProcessInfo c10Env (100 * 1024) c10Cache 1).1.DiskReadRate := by
  have h := wrapAround_rate c10Env (100 * 1024) c10Cache 1 0 0 ⟨1024, 0, 0⟩
    (by decide) (by decide) (by norm_num [c10Env]) (by norm_num) (by norm_num)
  refine ⟨?_, h.2⟩
  rw [h.1]
  norm_num [c10Env]

/-! ## C9: the series returned by `GetProcessMetrics` is immune to later
appends (no shared backing arrays) -/

/-- A Go append never touches any backing array other than its own slice's
(in place it writes through `s.ref`; on reallocation it only adds a fresh
array at the end of the heap). -/
theorem goAppend_getD_ne (h : GoHeap) (s : GoSlice) (v : ℚ) (r : Nat)
    (hr : r < h.length) (hne : r ≠ s.ref) :
    (goAppend h s v).1.getD r [] = h.getD r [] := by
  unfold goAppend
  split
  · simp [List.getD_eq_getElem?_getD, List.getElem?_set_ne (Ne.symm hne)]
  · simp [List.getD_eq_getElem?_getD, List.getElem?_append_left hr]

/-- A Go append never shrinks the heap. -/
theorem goAppend_length_le (h : GoHeap) (s : GoSlice) (v : ℚ) :
    h.length ≤ (goAppend h s v).1.length := by
  unfold goAppend
  split <;> simp

/-- All nine column refs of a series lie below `n`. -/
abbrev seriesRefsLt (pm : ProcessMetrics) (n : Nat) : Prop :=
  pm.Timestamps.ref < n ∧ pm.CPUPercent.ref < n ∧ pm.MemoryMB.ref < n ∧
  pm.DiskReadRate.ref < n ∧ pm.DiskWriteRate.ref < n ∧ pm.DiskReadPerc.ref < n ∧
  pm.DiskWritePerc.ref < n ∧ pm.NetSentRate.ref < n ∧ pm.NetRecvRate.ref < n

/-- All nine column refs of a series lie at or above `n`. -/
abbrev seriesRefsGe (pm : ProcessMetrics) (n : Nat) : Prop :=
  n ≤ pm.Timestamps.ref ∧ n ≤ pm.CPUPercent.ref ∧ n ≤ pm.MemoryMB.ref ∧
  n ≤ pm.DiskReadRate.ref ∧ n ≤ pm.DiskWriteRate.ref ∧ n ≤ pm.DiskReadPerc.ref ∧
  n ≤ pm.DiskWritePerc.ref ∧ n ≤ pm.NetSentRate.ref ∧ n ≤ pm.NetRecvRate.ref

/-- An `AddMetric` on series `s` leaves every backing array other than
`s`'s nine columns (and freshly allocated ones) untouched. -/
theorem addMetric_heap_preserved (h : GoHeap) (pm : ProcessMetrics)
    (a b c d e f g i j : ℚ) (r : Nat) (hr : r < h.length)
    (hrefs : r ≠ pm.Timestamps.ref ∧ r ≠ pm.CPUPercent.ref ∧
      r ≠ pm.MemoryMB.ref ∧ r ≠ pm.DiskReadRate.ref ∧
      r ≠ pm.DiskWriteRate.ref ∧ r ≠ pm.DiskReadPerc.ref ∧
      r ≠ pm.DiskWritePerc.ref ∧ r ≠ pm.NetSentRate.ref ∧
      r ≠ pm.NetRecvRate.ref) :
    (AddMetric h pm a b c d e f g i j).1.getD r [] = h.getD r [] := by
  obtain ⟨n1, n2, n3, n4, n5, n6, n7, n8, n9⟩ := hrefs
  have s1g := goAppend_getD_ne h pm.Timestamps a r hr n1
  have hr1 : r < (goAppend h pm.Timestamps a).1.length :=
    lt_of_lt_of_le hr (goAppend_length_le h pm.Timestamps a)
  have s2g := goAppend_getD_ne _ pm.CPUPercent b r hr1 n2
  have hr2 : r < (goAppend (goAppend h pm.Timestamps a).1 pm.CPUPercent b).1.length :=
    lt_of_lt_of_le hr1 (goAppend_length_le _ pm.CPUPercent b)
  have s3g := goAppend_getD_ne _ pm.MemoryMB c r hr2 n3
  have hr3 : r < (goAppend (goAppend (goAppend h pm.Timestamps a).1
      pm.CPUPercent b).1 pm.MemoryMB c).1.length :=
    lt_of_lt_of_le hr2 (goAppend_length_le _ pm.MemoryMB c)
  have s4g := goAppend_getD_ne _ pm.DiskReadRate d r hr3 n4
  have hr4 : r < (goAppend (goAppend (goAppend (goAppend h pm.Timestamps a).1
      pm.CPUPercent b).1 pm.MemoryMB c).1 pm.DiskReadRate d).1.length :=
    lt_of_lt_of_le hr3 (goAppend_length_le _ pm.DiskReadRate d)
  have s5g := goAppend_getD_ne _ pm.DiskWriteRate e r hr4 n5
  have hr5 : r < (goAppend (goAppend (goAppend (goAppend (goAppend h
      pm.Timestamps a).1 pm.CPUPercent b).1 pm.MemoryMB c).1
      pm.DiskReadRate d).1 pm.DiskWriteRate e).1.length :=
    lt_of_lt_of_le hr4 (goAppend_length_le _ pm.DiskWriteRate e)
  have s6g := goAppend_getD_ne _ pm.DiskReadPerc f r hr5 n6
  have hr6 : r < (goAppend (goAppend (goAppend (goAppend (goAppend (goAppend h
      pm.Timestamps a).1 pm.CPUPercent b).1 pm.MemoryMB c).1
      pm.DiskReadRate d).1 pm.DiskWriteRate e).1 pm.DiskReadPerc f).1.length :=
    lt_of_lt_of_le hr5 (goAppend_length_le _ pm.DiskReadPerc f)
  have s7g := goAppend_getD_ne _ pm.DiskWritePerc g r hr6 n7
  have hr7 : r < (goAppend (goAppend (goAppend (goAppend (goAppend (goAppend
      (goAppend h pm.Timestamps a).1 pm.CPUPercent b).1 pm.MemoryMB c).1
      pm.DiskReadRate d).1 pm.DiskWriteRate e).1 pm.DiskReadPerc f).1
      pm.DiskWritePerc g).1.length :=
    lt_of_lt_of_le hr6 (goAppend_length_le _ pm.DiskWritePerc g)
  have s8g := goAppend_getD_ne _ pm.NetSentRate i r hr7 n8
  have hr8 : r < (goAppend (goAppend (goAppend (goAppend (goAppend (goAppend
      (goAppend (goAppend h pm.Timestamps a).1 pm.CPUPercent b).1
      pm.MemoryMB c).1 pm.DiskReadRate d).1 pm.DiskWriteRate e).1
      pm.DiskReadPerc f).1 pm.DiskWritePerc g).1 pm.NetSentRate i).1.length :=
    lt_of_lt_of_le hr7 (goAppend_length_le _ pm.NetSentRate i)
  have s9g := goAppend_getD_ne _ pm.NetRecvRate j r hr8 n9
  simp only [AddMetric]
  rw [s9g, s8g, s7g, s6g, s5g, s4g, s3g, s2g, s1g]

/-- The values a slice denotes only depend on its own backing array. -/
theorem sliceVals_congr (h1 h2 : GoHeap) (s : GoSlice)
    (hh : h2.getD s.ref [] = h1.getD s.ref []) :
    sliceVals h2 s = sliceVals h1 s := by
  unfold sliceVals
  rw [hh]

/-- Appending to series `s` does not change the observable data of any
series `t` whose column refs are disjoint from `s`'s (all of `s`'s refs
below `m`, all of `t`'s at or above `m` and inside the heap). -/
theorem addMetric_other_series_unchanged (h : GoHeap) (s t : ProcessMetrics)
    (m : Nat) (a b c d e f g i j : ℚ)
    (hs : seriesRefsLt s m) (htlow : seriesRefsGe t m)
    (hthigh : seriesRefsLt t h.length) :
    seriesData (AddMetric h s a b c d e f g i j).1 t = seriesData h t := by
  obtain ⟨p1, p2, p3, p4, p5, p6, p7, p8, p9⟩ := hs
  obtain ⟨q1, q2, q3, q4, q5, q6, q7, q8, q9⟩ := htlow
  obtain ⟨w1, w2, w3, w4, w5, w6, w7, w8, w9⟩ := hthigh
  unfold seriesData
  have key : ∀ r : Nat, m ≤ r → r < h.length →
      (AddMetric h s a b c d e f g i j).1.getD r [] = h.getD r [] := by
    intro r hmr hrh
    exact addMetric_heap_preserved h s a b c d e f g i j r hrh
      ⟨by omega, by omega, by omega, by omega, by omega, by omega, by omega,
       by omega, by omega⟩
  rw [sliceVals_congr _ _ _ (key _ q1 w1), sliceVals_congr _ _ _ (key _ q2 w2),
    sliceVals_congr _ _ _ (key _ q3 w3), sliceVals_congr _ _ _ (key _ q4 w4),
    sliceVals_congr _ _ _ (key _ q5 w5), sliceVals_congr _ _ _ (key _ q6 w6),
    sliceVals_congr _ _ _ (key _ q7 w7), sliceVals_congr _ _ _ (key _ q8 w8),
    sliceVals_congr _ _ _ (key _ q9 w9)]

/-- C9: the series returned by `GetProcessMetrics` is a deep copy — a
later `AddMetric` on the stored series for the same pid leaves the
returned value's observable data unchanged (no shared backing between the
returned series and the store). -/
theorem getProcessMetrics_copy_unaffected (h : GoHeap)
    (pm : List (Int × ProcessMetrics)) (pid : Int) (s t : ProcessMetrics)
    (a b c d e f g i j : ℚ)
    (hlook : alGet pm pid = some s)
    (hrefs : seriesRefsLt s h.length)
    (ht : (GetProcessMetrics h pm pid).2 = some t) :
    seriesData (AddMetric (GetProcessMetrics h pm pid).1 s a b c d e f g i j).1 t
      = seriesData (GetProcessMetrics h pm pid).1 t := by
  simp only [GetProcessMetrics, hlook, goCopy, Option.some.injEq] at ht ⊢
  subst ht
  apply addMetric_other_series_unchanged _ _ _ h.length
  · exact hrefs
  · refine ⟨?_, ?_, ?_, ?_, ?_, ?_, ?_, ?_, ?_⟩ <;>
      simp only [List.length_append, List.length_singleton] <;> omega
  · refine ⟨?_, ?_, ?_, ?_, ?_, ?_, ?_, ?_, ?_⟩ <;>
      simp only [List.length_append, List.length_singleton] <;> omega

/-- A small store for the C9 witness: one capacity-2 series under pid 5. -/
def c9Base : GoHeap × ProcessMetrics := NewProcessMetrics [] 2

/-- The witness store map. -/
def c9Store : List (Int × ProcessMetrics) := [(5, c9Base.2)]

/-- The series the read returns for pid 5. -/
def c9Copy : ProcessMetrics :=
  match (GetProcessMetrics c9Base.1 c9Store 5).2 with
  | some t => t
  | none => default

/-- C9 witness: reading pid 5 then appending to its stored series leaves
the returned copy's data unchanged. -/
theorem getProcessMetrics_copy_unaffected_witness :
    (GetProcessMetrics c9Base.1 c9Store 5).2 = some c9Copy ∧
    seriesData (AddMetric (GetProcessMetrics c9Base.1 c9Store 5).1 c9Base.2
        1 2 3 4 5 6 7 8 9).1 c9Copy
      = seriesData (GetProcessMetrics c9Base.1 c9Store 5).1 c9Copy :=
  ⟨by decide,
   getProcessMetrics_copy_unaffected c9Base.1 c9Store 5 c9Base.2 c9Copy
     1 2 3 4 5 6 7 8 9 (by decide) (by decide) (by decide)⟩

/-! ## The registry and the acquisition cycle (`monitor.go`) -/

/-- `SortBy` (monitor.go:18-25). -/
inductive SortBy where
  | SortByPID
  | SortByName
  | SortByCPU
  | SortByMemory
  deriving DecidableEq

/-- `SystemMetrics` (types.go:26-32). -/
structure SystemMetrics where
  CPUPercent : ℚ
  MemoryPercent : ℚ
  TotalMemoryMB : ℚ
  UsedMemoryMB : ℚ
  Timestamp : ℚ
  deriving DecidableEq, Inhabited

/-- `Monitor` (monitor.go:35-47).  `lastProcessStats` keeps only the set
of cached pids (the cached handle itself carries no data the model
needs); the net-stats cache is never read and is omitted.  The
`lastProcessIO` map is spelled `lastProcessIo`. -/
structure MonitorState where
  heap : GoHeap
  processes : List ProcessInfo
  systemMetrics : SystemMetrics
  processMetrics : List (Int × ProcessMetrics)
  sortBy : SortBy
  sortDesc : Bool
  metricsCapacity : Nat
  lastProcessStats : List Int
  lastProcessIo : List (Int × ProcessIOCounters)
  systemIOTotal : ℚ
  deriving DecidableEq

/-- `NewMonitor` (monitor.go:50-62). -/
def NewMonitor : MonitorState :=
  { heap := [], processes := [], systemMetrics := default,
    processMetrics := [], sortBy := SortBy.SortByCPU, sortDesc := true,
    metricsCapacity := 60, lastProcessStats := [], lastProcessIo := [],
    systemIOTotal := 0 }

/-- `updateSystemMetrics` (monitor.go:162-190): CPU then memory; a failed
read returns the error with the state untouched, success replaces the
system snapshot wholesale. -/
def updateSystemMetrics (env : CycleEnv) (st : MonitorState) :
    MonitorState × Option String :=
  match env.cpuRes with
  | none => (st, some "cpu.Percent failed")
  | some cpuPercent =>
    let cpuValue := if 0 < cpuPercent.length then cpuPercent.headD 0 else 0
    match env.memRes with
    | none => (st, some "mem.VirtualMemory failed")
    | some memStat =>
      ({ st with systemMetrics :=
          { CPUPercent := cpuValue, MemoryPercent := memStat.2.2,
            TotalMemoryMB := (memStat.1 : ℚ) / 1024 / 1024,
            UsedMemoryMB := (memStat.2.1 : ℚ) / 1024 / 1024,
            Timestamp := env.now } }, none)

/-- `calculateSystemIOTotal` (monitor.go:278-283): the constant baseline
of 100 MB/s expressed in KB/s. -/
def calculateSystemIOTotal : ℚ := 100 * 1024

/-- The priority score of `sortProcessesByResourceUsage`
(monitor.go:382-383): CPU% plus memory%. -/
def resourceScore (p : ProcessInfo) : ℚ := p.CPUPercent + p.MemoryPerc

/-- The ordering `sort.Slice` establishes in
`sortProcessesByResourceUsage`: scores descending. -/
def scoreGe (a b : ProcessInfo) : Prop := resourceScore b ≤ resourceScore a

instance : DecidableRel scoreGe :=
  fun a b => inferInstanceAs (Decidable (resourceScore b ≤ resourceScore a))

instance : IsTotal ProcessInfo scoreGe :=
  ⟨fun a b => le_total (resourceScore b) (resourceScore a)⟩

instance : IsTrans ProcessInfo scoreGe :=
  ⟨fun _ _ _ hab hbc => le_trans hbc hab⟩

/-- `sortProcessesByResourceUsage` (monitor.go:379-386): sort descending
by score.  Go's `sort.Slice` is unstable, so tie order is unspecified;
a stable insertion sort realizes one admissible outcome of it. -/
def sortProcessesByResourceUsage (processes : List ProcessInfo) :
    List ProcessInfo :=
  List.insertionSort scoreGe processes

/-- The top-`maxProcesses` truncation of the first pass
(monitor.go:245-250): sort, then cut to the cap when longer. -/
def prioritizeTop (maxProcesses : Nat) (processes : List ProcessInfo) :
    List ProcessInfo :=
  let sorted := sortProcessesByResourceUsage processes
  if maxProcesses < sorted.length then sorted.take maxProcesses else sorted

/-- The comparison of `sortProcesses` (monitor.go:498-519) before the
descending flip. -/
def sortLess (sb : SortBy) (a b : ProcessInfo) : Bool :=
  match sb with
  | SortBy.SortByPID => decide (a.PID < b.PID)
  | SortBy.SortByName => decide (a.Name < b.Name)
  | SortBy.SortByCPU => decide (a.CPUPercent < b.CPUPercent)
  | SortBy.SortByMemory => decide (a.MemoryMB < b.MemoryMB)

/-- `sortProcesses` (monitor.go:498-519): `sort.Slice` with the selected
comparison, flipped when descending; again a stable insertion sort
realizes one admissible outcome of the unstable sort (the established
order is that no later element is strictly below an earlier one under the
flipped comparison). -/
def sortProcesses (sb : SortBy) (desc : Bool) (ps : List ProcessInfo) :
    List ProcessInfo :=
  List.insertionSort
    (fun a b => (if desc then !(sortLess sb b a) else sortLess sb b a) = false) ps

/-- Mutable state threaded through the second (detailed) pass of
`updateProcessMetrics`. -/
structure CycleAcc where
  heap : GoHeap
  processMetrics : List (Int × ProcessMetrics)
  lastProcessIo : List (Int × ProcessIOCounters)
  processes : List ProcessInfo

/-- One iteration of the second pass (monitor.go:254-266): pids kept by
the first pass get a detailed read — which in the source can never return
an error, since `getBasicProcessInfo` always returns nil — are appended
to the published list and to their time series. -/
def secondPassStep (env : CycleEnv) (systemIOTotal : ℚ)
    (metricsCapacity : Nat) (newProcessStats : List Int)
    (acc : CycleAcc) (basicInfo : ProcessInfo) : CycleAcc :=
  if newProcessStats.contains basicInfo.PID then
    let d := getDetailedProcessInfo env systemIOTotal acc.lastProcessIo basicInfo.PID
    let u := updateProcessTimeSeriesMetrics acc.heap acc.processMetrics
      metricsCapacity env.now d.1
    { heap := u.1, processMetrics := u.2, lastProcessIo := d.2,
      processes := acc.processes ++ [d.1] }
  else acc

/-- `updateProcessMetrics` (monitor.go:192-275): enumerate pids (failure
aborts with the state unchanged), store the I/O baseline, cheap first
pass over every pid (skipping pids with no cached handle for which
`process.NewProcess` fails), sort by score and truncate to the top 150,
then the detailed second pass, and finally publish the new list, replace
the handle cache and sort the published list. -/
def updateProcessMetrics (env : CycleEnv) (st : MonitorState) :
    MonitorState × Option String :=
  match env.pidsRes with
  | none => (st, some "process.Pids failed")
  | some pids =>
    let st1 := { st with systemIOTotal := calculateSystemIOTotal }
    let firstPass := pids.foldl (fun acc pid =>
      if st.lastProcessStats.contains pid || env.newProcessOk pid then
        ((if acc.1.contains pid then acc.1 else acc.1 ++ [pid]),
         acc.2 ++ [getBasicProcessInfo env pid])
      else acc) (([] : List Int), ([] : List ProcessInfo))
    let newProcessStats := firstPass.1
    let allProcesses := prioritizeTop 150 firstPass.2
    let res := allProcesses.foldl
      (secondPassStep env st1.systemIOTotal st1.metricsCapacity newProcessStats)
      { heap := st1.heap, processMetrics := st1.processMetrics,
        lastProcessIo := st1.lastProcessIo, processes := [] }
    ({ st1 with
        heap := res.heap
        processMetrics := res.processMetrics
        lastProcessIo := res.lastProcessIo
        lastProcessStats := newProcessStats
        processes := sortProcesses st1.sortBy st1.sortDesc res.processes }, none)

/-- `UpdateMetrics` (monitor.go:148-160): system metrics first — an error
is wrapped and returned immediately, so the process update does not run —
then process metrics. -/
def UpdateMetrics (env : CycleEnv) (st : MonitorState) :
    MonitorState × Option String :=
  let sys := updateSystemMetrics env st
  match sys.2 with
  | some e => (sys.1, some ("failed to update system metrics: " ++ e))
  | none =>
    let proc := updateProcessMetrics env sys.1
    match proc.2 with
    | some e => (proc.1, some ("failed to update process metrics: " ++ e))
    | none => (proc.1, none)

/-! ## C3: a system-totals failure aborts the whole cycle -/

/-- C3 (amended): when the system-totals read fails (CPU or memory), the
whole `UpdateMetrics` cycle aborts — it returns the wrapped error with the
monitor state entirely unchanged, so the process-list update is skipped,
not performed independently. -/
theorem updateMetrics_sysFailure_aborts_cycle (env : CycleEnv)
    (st : MonitorState) (hfail : env.cpuRes = none ∨ env.memRes = none) :
    (UpdateMetrics env st).1 = st ∧ ((UpdateMetrics env st).2).isSome := by
  rcases hfail with hc | hm
  · simp [UpdateMetrics, updateSystemMetrics, hc]
  · cases hcpu : env.cpuRes <;>
      simp [UpdateMetrics, updateSystemMetrics, hcpu, hm]

/-- A cycle whose system-CPU read fails while process enumeration and all
per-process reads would succeed. -/
def c3Env : CycleEnv :=
  { now := 0, cpuRes := none, memRes := some (0, 0, 0), pidsRes := some [1],
    newProcessOk := fun _ => true,
    basicRead := fun _ => ⟨"alpha", 50, 10, 100⟩,
    createTimeRes := fun _ => none, ioCountersRes := fun _ => none }

/-- C3 counterexample: under `c3Env` the system-totals read fails but
process enumeration is available — `updateProcessMetrics` alone would
publish a one-entry list — yet `UpdateMetrics` returns early with the
published list still empty, so the process-list update of that cycle does
not proceed. -/
theorem updateMetrics_sysFailure_counterexample :
    (UpdateMetrics c3Env NewMonitor).1.processes = [] ∧
    ((UpdateMetrics c3Env NewMonitor).2).isSome = true ∧
    ((updateProcessMetrics c3Env NewMonitor).1.processes).length = 1 := by
  refine ⟨?_, ?_, ?_⟩ <;> decide

/-- C3 witness for the amended claim, at the concrete failing
environment. -/
theorem updateMetrics_sysFailure_aborts_cycle_witness :
    (UpdateMetrics c3Env NewMonitor).1 = NewMonitor ∧
    ((UpdateMetrics c3Env NewMonitor).2).isSome :=
  updateMetrics_sysFailure_aborts_cycle c3Env NewMonitor (Or.inl rfl)

/-! ## C5: the published list never exceeds the 150 cap -/

/-- Each second-pass iteration grows the published list by at most one. -/
theorem secondPass_length_le (env : CycleEnv) (sysIo : ℚ) (capn : Nat)
    (stats : List Int) (l : List ProcessInfo) (acc : CycleAcc) :
    ((l.foldl (secondPassStep env sysIo capn stats) acc).processes).length
      ≤ acc.processes.length + l.length := by
  induction l generalizing acc with
  | nil => simp
  | cons x xs ih =>
    simp only [List.foldl_cons, List.length_cons]
    have hstep : ((secondPassStep env sysIo capn stats acc x).processes).length
        ≤ acc.processes.length + 1 := by
      unfold secondPassStep
      split <;> simp
    have hx := ih (secondPassStep env sysIo capn stats acc x)
    omega

/-- The first-pass truncation keeps at most `k` entries. -/
theorem prioritizeTop_length_le (k : Nat) (xs : List ProcessInfo) :
    (prioritizeTop k xs).length ≤ k := by
  simp only [prioritizeTop]
  split
  · simp
  · exact Nat.le_of_not_lt (by assumption)

/-- C5: whenever `updateProcessMetrics` completes (returns no error), the
published process list holds at most 150 entries, however many pids were
enumerated. -/
theorem publishedProcesses_le_150 (env : CycleEnv) (st : MonitorState)
    (hok : (updateProcessMetrics env st).2 = none) :
    ((updateProcessMetrics env st).1.processes).length ≤ 150 := by
  cases hpids : env.pidsRes with
  | none => simp [updateProcessMetrics, hpids] at hok
  | some pids =>
    simp only [updateProcessMetrics, hpids]
    have hsort : ∀ sb d ps, (sortProcesses sb d ps).length = ps.length := by
      intro sb d ps
      simp [sortProcesses, List.length_insertionSort]
    rw [hsort]
    refine le_trans (secondPass_length_le _ _ _ _ _ _) ?_
    simpa using prioritizeTop_length_le 150 _

/-- A two-process cycle with every read succeeding. -/
def c5Env : CycleEnv :=
  { now := 0, cpuRes := some [0], memRes := some (0, 0, 0),
    pidsRes := some [1, 2], newProcessOk := fun _ => true,
    basicRead := fun _ => ⟨"p", 1, 1, 1⟩,
    createTimeRes := fun _ => none, ioCountersRes := fun _ => none }

/-- C5 witness: the two-process cycle completes and publishes at most 150
entries. -/
theorem publishedProcesses_le_150_witness :
    (updateProcessMetrics c5Env NewMonitor).2 = none ∧
    ((updateProcessMetrics c5Env NewMonitor).1.processes).length ≤ 150 :=
  ⟨by decide, publishedProcesses_le_150 c5Env NewMonitor (by decide)⟩

/-! ## C6: the prioritizer -/

/-- Scenario process 1: CPU 90%, memory 0%. -/
def c6P1 : ProcessInfo := ⟨1, "a", 90, 0, 0, 0, 0, 0, 0, 0, 0, 0, 0, 0, 0, 0⟩

/-- Scenario process 2: CPU 10%, memory 0%. -/
def c6P2 : ProcessInfo := ⟨2, "b", 10, 0, 0, 0, 0, 0, 0, 0, 0, 0, 0, 0, 0, 0⟩

/-- Scenario process 3: CPU 5%, memory 0%. -/
def c6P3 : ProcessInfo := ⟨3, "c", 5, 0, 0, 0, 0, 0, 0, 0, 0, 0, 0, 0, 0, 0⟩

/-- C6: the prioritizer scores processes as CPU% + memory%, orders them
with scores descending (a permutation of its input), keeps exactly
`min k n` entries and performs no truncation when at most `k` processes
are live; on the scenario — pids 1, 2, 3 with CPU 90, 10, 5 and cap 2 —
it keeps exactly pids 1 and 2. -/
theorem prioritizer_scores_sorts_truncates (k : Nat) (ps : List ProcessInfo) :
    List.Sorted scoreGe (sortProcessesByResourceUsage ps) ∧
    (sortProcessesByResourceUsage ps).Perm ps ∧
    (prioritizeTop k ps).length = min k ps.length ∧
    (ps.length ≤ k → prioritizeTop k ps = sortProcessesByResourceUsage ps) ∧
    (prioritizeTop 2 [c6P1, c6P2, c6P3]).map (fun p => p.PID) = [1, 2] := by
  refine ⟨List.sorted_insertionSort scoreGe ps,
    List.perm_insertionSort scoreGe ps, ?_, ?_, ?_⟩
  · simp only [prioritizeTop]
    split
    · simp [sortProcessesByResourceUsage, List.length_insertionSort,
        List.length_take]
    · next hnot =>
      simp only [sortProcessesByResourceUsage, List.length_insertionSort]
        at hnot ⊢
      omega
  · intro hk
    have hlen : ¬ k < (sortProcessesByResourceUsage ps).length := by
      simp only [sortProcessesByResourceUsage, List.length_insertionSort]
      omega
    simp only [prioritizeTop, if_neg hlen]
  · norm_num [prioritizeTop, sortProcessesByResourceUsage, List.insertionSort,
      List.orderedInsert, scoreGe, resourceScore, c6P1, c6P2, c6P3]

/-- C6 witness: a single live process with cap 150 is kept without
truncation. -/
theorem prioritizer_scores_sorts_truncates_witness :
    [c6P1].length ≤ 150 ∧
    prioritizeTop 150 [c6P1] = sortProcessesByResourceUsage [c6P1] :=
  ⟨by decide,
   (prioritizer_scores_sorts_truncates 150 [c6P1]).2.2.2.1 (by decide)⟩
